import Mathlib

/-!
Verification of the context-aware relevance engine of the agent-memory
system (TypeScript sources: `src/tools/memory_recall_context.ts`,
`src/tools/memory_suggestions.ts`, `src/cognitive/context-client.ts`,
`src/cognitive/suggestion-client.ts`).

The SQLite store is modelled as a `List MemoryRecord`; SQL queries become
filter / stable-sort / take pipelines (SQLite `ORDER BY` is modelled as a
stable sort on store order).  JavaScript numbers are modelled by exact
rationals, epoch-millisecond timestamps by `Int`.  JavaScript truthiness
tests on nullable columns are translated explicitly (`x || d` on a number
is `d` when the value is absent or `0`; a truthy test on a string fails on
`null` and on the empty string).  `JSON.parse` applied to the serialized
`entities` column is modelled by `parseEntities`, a parser for JSON arrays
of strings (the shape the extraction step stores); inputs of any other
shape make the surrounding code skip the field, which the parser mirrors
by returning `none`.
-/

namespace MemoryEngine

/-- Substring test on character lists: JavaScript `String.includes` and the
body of a SQL `LIKE '%p%'` pattern. -/
def seqContains (needle : List Char) : List Char → Bool
  | [] => needle.isEmpty
  | c :: rest => needle.isPrefixOf (c :: rest) || seqContains needle rest

/-- JavaScript `s.includes(pat)` (case sensitive). -/
def strContains (s pat : String) : Bool :=
  seqContains pat.toList s.toList

/-- SQLite `s LIKE '%pat%'`: ASCII case-insensitive containment. -/
def likeContains (s pat : String) : Bool :=
  seqContains pat.toLower.toList s.toLower.toList

/-- JavaScript `s.slice(0, n)` (also SQL-side truncation). -/
def strTake (s : String) (n : Nat) : String :=
  String.mk (s.toList.take n)

/-- JavaScript `Math.round(q * 1000) / 1000`: round to three decimal
places, halves toward positive infinity. -/
def round3 (q : ℚ) : ℚ :=
  ((⌊q * 1000 + 1/2⌋ : ℤ) : ℚ) / 1000

/-- JavaScript `x.toFixed(2)` for a non-negative rational. -/
def toFixed2 (q : ℚ) : String :=
  let n : ℤ := ⌊q * 100 + 1/2⌋
  let m : ℕ := n.toNat
  toString (m / 100) ++ "." ++ (if m % 100 < 10 then "0" else "") ++ toString (m % 100)

/-! ### A parser for JSON arrays of strings (model of `JSON.parse` on the
serialized `entities` column) -/

/-- Parser modes for `parseEntities`. -/
inductive PMode where
  | start | expectFirst | inStr | escape | afterStr | expectNext | finish | bad
  deriving DecidableEq

/-- Parser state: mode, characters of the string item being read, items
finished so far. -/
structure PSt where
  mode : PMode
  cur : List Char
  items : List String
  deriving DecidableEq

/-- JSON whitespace. -/
def jsonWs (c : Char) : Bool :=
  c = ' ' || c = '\n' || c = '\t' || c = '\r'

/-- Decoding of the escape sequences that can appear in stored entity
names. -/
def unescape (c : Char) : Option Char :=
  if c = '"' then some '"'
  else if c = '\\' then some '\\'
  else if c = '/' then some '/'
  else if c = 'n' then some '\n'
  else if c = 't' then some '\t'
  else if c = 'r' then some '\r'
  else none

/-- One step of the JSON string-array parser. -/
def pstep (s : PSt) (c : Char) : PSt :=
  match s.mode with
  | PMode.start =>
      if jsonWs c then s
      else if c = '[' then { s with mode := PMode.expectFirst }
      else { s with mode := PMode.bad }
  | PMode.expectFirst =>
      if jsonWs c then s
      else if c = '"' then { s with mode := PMode.inStr, cur := [] }
      else if c = ']' then { s with mode := PMode.finish }
      else { s with mode := PMode.bad }
  | PMode.inStr =>
      if c = '"' then
        { mode := PMode.afterStr, cur := [], items := s.items ++ [String.mk s.cur] }
      else if c = '\\' then { s with mode := PMode.escape }
      else { s with cur := s.cur ++ [c] }
  | PMode.escape =>
      match unescape c with
      | some d => { s with mode := PMode.inStr, cur := s.cur ++ [d] }
      | none => { s with mode := PMode.bad }
  | PMode.afterStr =>
      if jsonWs c then s
      else if c = ',' then { s with mode := PMode.expectNext }
      else if c = ']' then { s with mode := PMode.finish }
      else { s with mode := PMode.bad }
  | PMode.expectNext =>
      if jsonWs c then s
      else if c = '"' then { s with mode := PMode.inStr, cur := [] }
      else { s with mode := PMode.bad }
  | PMode.finish =>
      if jsonWs c then s else { s with mode := PMode.bad }
  | PMode.bad => s

/-- Model of `JSON.parse` on the `entities` column, restricted to the stored shape
(a JSON array of strings); any other input yields `none`, which the
calling code treats as "skip this field". -/
def parseEntities (raw : String) : Option (List String) :=
  let f := raw.toList.foldl pstep { mode := PMode.start, cur := [], items := [] }
  if f.mode = PMode.finish then some f.items else none

/-! ### Stable sorting (JavaScript `Array.prototype.sort` is stable;
SQLite `ORDER BY` is modelled as a stable sort on store order) -/

/-- Insert `x` into `l`, keeping every element `y` with `lt x y` (strictly
greater priority than `x`) in front; among equals `x` goes first, which
together with `sortByStable` processing order yields stability. -/
def insertStable (lt : α → α → Bool) (x : α) : List α → List α
  | [] => [x]
  | y :: ys => if lt x y then y :: insertStable lt x ys else x :: y :: ys

/-- Stable sort: `lt a b` means `a` must come strictly after `b`. -/
def sortByStable (lt : α → α → Bool) : List α → List α
  | [] => []
  | x :: xs => insertStable lt x (sortByStable lt xs)

theorem mem_insertStable (lt : α → α → Bool) (x : α) (l : List α) (a : α) :
    a ∈ insertStable lt x l ↔ a = x ∨ a ∈ l := by
  induction l with
  | nil => simp [insertStable]
  | cons y ys ih =>
      cases h : lt x y with
      | true => simp only [insertStable, h, if_pos, List.mem_cons, ih]; tauto
      | false => simp [insertStable, h]

theorem mem_sortByStable (lt : α → α → Bool) (l : List α) (a : α) :
    a ∈ sortByStable lt l ↔ a ∈ l := by
  induction l with
  | nil => simp [sortByStable]
  | cons x xs ih =>
      simp only [sortByStable, mem_insertStable, List.mem_cons, ih]

theorem filter_insertStable_pos (lt : α → α → Bool) (p : α → Bool) (x : α)
    (l : List α) (hx : p x = true) (hty : ∀ y, p y = true → lt x y = false) :
    (insertStable lt x l).filter p = x :: l.filter p := by
  induction l with
  | nil => simp [insertStable, hx]
  | cons y ys ih =>
      cases h : lt x y with
      | true =>
          have hpy : p y = false := by
            cases hpy : p y with
            | true => rw [hty y hpy] at h; exact absurd h (by simp)
            | false => rfl
          simp [insertStable, h, List.filter_cons, hpy, ih]
      | false => simp [insertStable, h, List.filter_cons, hx]

theorem filter_insertStable_neg (lt : α → α → Bool) (p : α → Bool) (x : α)
    (l : List α) (hx : p x = false) :
    (insertStable lt x l).filter p = l.filter p := by
  induction l with
  | nil => simp [insertStable, hx]
  | cons y ys ih =>
      cases h : lt x y with
      | true => simp [insertStable, h, List.filter_cons, ih]
      | false => simp [insertStable, h, List.filter_cons, hx]

/-- Stability of `sortByStable`: elements whose sort keys tie (so that `lt`
never orders one strictly after the other) keep their input order. -/
theorem filter_sortByStable (lt : α → α → Bool) (p : α → Bool) (l : List α)
    (hkey : ∀ x y, p x = true → p y = true → lt x y = false) :
    (sortByStable lt l).filter p = l.filter p := by
  induction l with
  | nil => rfl
  | cons x xs ih =>
      cases hx : p x with
      | true =>
          rw [sortByStable, filter_insertStable_pos lt p x _ hx (fun y hy => hkey x y hx hy),
            ih, List.filter_cons, hx]
          simp
      | false =>
          rw [sortByStable, filter_insertStable_neg lt p x _ hx, ih, List.filter_cons, hx]
          simp

theorem pairwise_insertStable (lt : α → α → Bool) (x : α) (l : List α)
    (hasym : ∀ a b, lt a b = true → lt b a = false)
    (htrans : ∀ a b c, lt a b = false → lt b c = false → lt a c = false)
    (hl : l.Pairwise (fun a b => lt a b = false)) :
    (insertStable lt x l).Pairwise (fun a b => lt a b = false) := by
  induction l with
  | nil => simp [insertStable]
  | cons y ys ih =>
      rcases List.pairwise_cons.mp hl with ⟨hy, hys⟩
      cases h : lt x y with
      | true =>
          rw [insertStable, h, if_pos rfl]
          refine List.pairwise_cons.mpr ⟨?_, ih hys⟩
          intro z hz
          rcases (mem_insertStable lt x ys z).mp hz with hzx | hz'
          · rw [hzx]; exact hasym x y h
          · exact hy z hz'
      | false =>
          rw [insertStable, h]
          simp only [Bool.false_eq_true, if_false]
          refine List.pairwise_cons.mpr ⟨?_, hl⟩
          intro z hz
          rcases List.mem_cons.mp hz with hzy | hz'
          · rw [hzy]; exact h
          · exact htrans x y z h (hy z hz')

/-- The output of `sortByStable` is sorted: no element comes strictly after
a later one. -/
theorem pairwise_sortByStable (lt : α → α → Bool) (l : List α)
    (hasym : ∀ a b, lt a b = true → lt b a = false)
    (htrans : ∀ a b c, lt a b = false → lt b c = false → lt a c = false) :
    (sortByStable lt l).Pairwise (fun a b => lt a b = false) := by
  induction l with
  | nil => simp [sortByStable]
  | cons x xs ih => exact pairwise_insertStable lt x _ hasym htrans ih

/-! ### Data model (§3 of the spec; `memories` table of `schemas.sql`) -/

/-- A row of the `memories` table as the engine reads it.  Nullable columns
are `Option`; `timestamp` is epoch milliseconds. -/
structure MemoryRecord where
  id : String
  type : String
  content : Option String
  project : Option String
  file_path : Option String
  entities : Option String
  tags : Option String
  timestamp : Int
  importance_score : Option ℚ
  access_count : Option Int
  last_accessed : Option Int
  archived : Bool
  content_hash : String
  deriving DecidableEq

/-- Type `ContextAnalysis` of `memory_recall_context.ts`. -/
structure ContextAnalysis where
  active : Bool
  context_type : Option String
  primary_project : Option String
  active_projects : List String
  active_entities : List String
  current_focus : Option String
  recent_activity_count : Nat
  deriving DecidableEq

/-- Type `RecalledMemory` of `memory_recall_context.ts`. -/
structure RecalledMemory where
  id : String
  type : String
  content : String
  project : Option String
  relevance_score : ℚ
  recall_reason : String
  deriving DecidableEq

/-- Type `RecallContextResult` of `memory_recall_context.ts`. -/
structure RecallContextResult where
  context : ContextAnalysis
  recalled_memories : List RecalledMemory
  suggestions : List String
  deriving DecidableEq

/-- Input of the `memory_recall_context` tool. -/
structure RecallInput where
  project : Option String
  file_path : Option String
  recent_minutes : Int
  limit : Nat
  deriving DecidableEq

/-! ### Frequency maps

A JavaScript object used as a counter stores its keys in insertion
order, but `Object.entries` does not enumerate them all in that order:
array-index keys (canonical numeric strings whose value is below
2^32 - 1, such as "7") are listed first, in ascending numeric order, and
only then come the remaining keys in insertion order.  The counter is
modelled as an association list in first-encounter order; `jsEntries`
reproduces the `Object.entries` enumeration order on top of it. -/

/-- Step `counts[k] = (counts[k] || 0) + 1` of the tally loops. -/
def bumpCount (l : List (String × Nat)) (k : String) : List (String × Nat) :=
  if l.any (fun kv => kv.1 == k) then
    l.map (fun kv => if kv.1 == k then (kv.1, kv.2 + 1) else kv)
  else l ++ [(k, 1)]

/-- The `projectCounts` loop of `analyzeContext` (truthy guard on the nullable
column). -/
def projectCountsOf (ms : List MemoryRecord) : List (String × Nat) :=
  ms.foldl
    (fun acc m =>
      match m.project with
      | some p => if p = "" then acc else bumpCount acc p
      | none => acc)
    []

/-- The `typeCounts` loop of `analyzeContext`. -/
def typeCountsOf (ms : List MemoryRecord) : List (String × Nat) :=
  ms.foldl (fun acc m => if m.type = "" then acc else bumpCount acc m.type) []

/-- The `fileCounts` loop (`inferFocus` in the tool, main loop in the
`ContextClient`). -/
def fileCountsOf (ms : List MemoryRecord) : List (String × Nat) :=
  ms.foldl
    (fun acc m =>
      match m.file_path with
      | some f => if f = "" then acc else bumpCount acc f
      | none => acc)
    []

/-- The `entityCounts` loop of `analyzeContext`: parse the serialized entity
list, skipping records whose column is null, empty or unparsable. -/
def entityCountsOf (ms : List MemoryRecord) : List (String × Nat) :=
  ms.foldl
    (fun acc m =>
      match m.entities with
      | some raw =>
          if raw = "" then acc
          else
            match parseEntities raw with
            | some es => es.foldl bumpCount acc
            | none => acc
      | none => acc)
    []

/-- Numeric value of a digit string. -/
def digitsToNat (l : List Char) : Nat :=
  l.foldl (fun acc c => acc * 10 + (c.toNat - 48)) 0

/-- ECMAScript array-index test for a property key: a canonical base-10
numeral (no leading zero except "0" itself) whose value is below
2^32 - 1. -/
def isArrayIndexKey (s : String) : Bool :=
  match s.toList with
  | [] => false
  | c :: cs =>
      (c :: cs).all Char.isDigit &&
      (c ≠ '0' || cs.isEmpty) &&
      decide (digitsToNat (c :: cs) < 4294967295)

/-- Numeric sort key of an array-index property key. -/
def keyIndexVal (s : String) : Nat :=
  digitsToNat s.toList

/-- Enumeration order of `Object.entries` over an insertion-ordered key
table: array-index keys first, ascending by numeric value, then the
remaining keys in insertion order. -/
def jsEntries (l : List (String × Nat)) : List (String × Nat) :=
  sortByStable (fun a b => decide (keyIndexVal b.1 < keyIndexVal a.1))
    (l.filter (fun kv => isArrayIndexKey kv.1)) ++
  l.filter (fun kv => !isArrayIndexKey kv.1)

/-- Model of `Object.entries(counts).sort((a, b) => b[1] - a[1])`:
enumerate the counter in `Object.entries` order, then stable descending
sort by count. -/
def sortEntriesDesc (l : List (String × Nat)) : List (String × Nat) :=
  sortByStable (fun a b => decide (a.2 < b.2)) (jsEntries l)

/-! ### Context Analyzer (tool version, `memory_recall_context.ts`) -/

/-- Function `inferContextType`: debugging-keyword override on the 10 most recent
contents, else a fixed map over the most frequent record type. -/
def inferContextType (tc : List (String × Nat)) (ms : List MemoryRecord) : String :=
  let primaryType := ((sortEntriesDesc tc).head?).map Prod.fst
  let allContent :=
    String.intercalate " " ((ms.take 10).map (fun m => strTake (m.content.getD "").toLower 200))
  if ["error", "exception", "traceback", "failed", "bug", "fix"].any
      (fun kw => strContains allContent kw) then "debugging"
  else
    match primaryType with
    | some "code" => "coding"
    | some "command" => "system_admin"
    | some "conversation" => "planning"
    | some "note" => "documentation"
    | some "decision" => "planning"
    | some "insight" => "analysis"
    | _ => "general"

/-- File-focus fallback of the tool version of `inferFocus`. -/
def fileFocus (ms : List MemoryRecord) : Option String :=
  match (sortEntriesDesc (fileCountsOf ms)).head? with
  | some tf => if 3 ≤ tf.2 then some ("file:" ++ tf.1) else none
  | none => none

/-- Function `inferFocus` of `memory_recall_context.ts`: top entity first (threshold
3), then top file (threshold 3), else null. -/
def inferFocus (ms : List MemoryRecord) (ec : List (String × Nat)) : Option String :=
  if ms.isEmpty then none
  else
    match (sortEntriesDesc ec).head? with
    | some te => if 3 ≤ te.2 then some ("entity:" ++ te.1) else fileFocus ms
    | none => fileFocus ms

/-- The inactive snapshot returned for an empty window. -/
def inactiveContext : ContextAnalysis :=
  { active := false, context_type := none, primary_project := none,
    active_projects := [], active_entities := [], current_focus := none,
    recent_activity_count := 0 }

/-- Function `analyzeContext` of `memory_recall_context.ts`. -/
def analyzeContext (ms : List MemoryRecord) : ContextAnalysis :=
  if ms.isEmpty then inactiveContext
  else
    let pc := projectCountsOf ms
    let ec := entityCountsOf ms
    let tc := typeCountsOf ms
    let sortedProjects := (sortEntriesDesc pc).map Prod.fst
    let sortedEntities := ((sortEntriesDesc ec).take 10).map Prod.fst
    { active := true,
      context_type := some (inferContextType tc ms),
      primary_project := sortedProjects.head?,
      active_projects := sortedProjects.take 3,
      active_entities := sortedEntities,
      current_focus := inferFocus ms ec,
      recent_activity_count := ms.length }

/-- Project pre-filter of the recent-memories query (`AND project = ?`,
only added when the hint is truthy). -/
def hintProjOk (proj : Option String) (m : MemoryRecord) : Bool :=
  match proj with
  | some p => if p = "" then true else m.project == some p
  | none => true

/-- File pre-filter of the recent-memories query (`AND file_path LIKE ?`,
only added when the hint is truthy). -/
def hintFileOk (file : Option String) (m : MemoryRecord) : Bool :=
  match file with
  | some f =>
      if f = "" then true
      else
        match m.file_path with
        | some fp => likeContains fp f
        | none => false
  | none => true

/-- The recent-memories query of `recallContext`: non-archived rows with
`timestamp > cutoff`, hint filters, newest first, `LIMIT 50`. -/
def fetchRecent (db : List MemoryRecord) (cutoff : Int) (proj file : Option String) :
    List MemoryRecord :=
  (sortByStable (fun a b => decide (a.timestamp < b.timestamp))
    (db.filter (fun m =>
      decide (cutoff < m.timestamp) && !m.archived && hintProjOk proj m && hintFileOk file m))).take 50

/-! ### Relevance Scorer (`calculateRelevance`, `getRecallReason`)

`calculateRelevance` accumulates `score` over four independent blocks; the
blocks are named here and summed in order. -/

/-- Project-match component: `+0.35` on `memory.project ===
context.primary_project` (also when both are null), else `+0.2` when the
project is truthy and listed in `active_projects`. -/
def codeProjectTerm (m : MemoryRecord) (ctx : ContextAnalysis) : ℚ :=
  if m.project = ctx.primary_project then 35/100
  else if (match m.project with
           | some p => p ≠ "" && ctx.active_projects.contains p
           | none => false) then 2/10
  else 0

/-- Entity-overlap component: `min(0.3, overlap * 0.1)` over the parsed
entity list, guarded by truthiness of the column and a non-empty
`active_entities`. -/
def codeEntityTerm (m : MemoryRecord) (ctx : ContextAnalysis) : ℚ :=
  match m.entities with
  | none => 0
  | some raw =>
      if raw = "" || ctx.active_entities.isEmpty then 0
      else
        match parseEntities raw with
        | some es =>
            min (3/10)
              (((ctx.active_entities.filter (fun e => es.contains e)).length : ℚ) * (1/10))
        | none => 0

/-- Importance component: `(importance_score || 0.5) * 0.2` — the
JavaScript default fires both when the column is null and when it is 0. -/
def codeImportanceTerm (m : MemoryRecord) : ℚ :=
  (match m.importance_score with
   | none => 1/2
   | some x => if x = 0 then 1/2 else x) * (2/10)

/-- Access-frequency component: `Math.min(1, (access_count || 0) / 10) *
0.1`. -/
def codeAccessTerm (m : MemoryRecord) : ℚ :=
  min 1 ((match m.access_count with
          | none => (0 : ℚ)
          | some a => (a : ℚ)) / 10) * (1/10)

/-- Function `calculateRelevance` of `memory_recall_context.ts`. -/
def calculateRelevance (m : MemoryRecord) (ctx : ContextAnalysis) : ℚ :=
  round3 (codeProjectTerm m ctx + codeEntityTerm m ctx + codeImportanceTerm m + codeAccessTerm m)

/-- Function `getRecallReason` of `memory_recall_context.ts`. -/
def getRecallReason (m : MemoryRecord) (ctx : ContextAnalysis) : String :=
  let reasons :=
    (match m.project with
     | some p =>
         if p ≠ "" && (some p == ctx.primary_project) then ["Same project: " ++ p] else []
     | none => []) ++
    (match m.entities with
     | some raw =>
         if raw = "" || ctx.active_entities.isEmpty then []
         else
           match parseEntities raw with
           | some es =>
               let overlap := ctx.active_entities.filter (fun e => es.contains e)
               if overlap.isEmpty then []
               else ["Related entities: " ++ String.intercalate ", " (overlap.take 3)]
           | none => []
     | none => []) ++
    (if mkRat 7 10 ≤ (match m.importance_score with | none => 0 | some x => x) then
      ["High importance"] else [])
  if reasons.isEmpty then "General relevance" else String.intercalate "; " reasons

/-! ### Recall Engine (`recallRelevantMemories`, `recallContext`) -/

/-- SQLite `<` on a nullable REAL column (NULL sorts below every value). -/
def optQLt : Option ℚ → Option ℚ → Bool
  | none, none => false
  | none, some _ => true
  | some _, none => false
  | some a, some b => decide (a < b)

/-- SQLite `<` on a nullable INTEGER column. -/
def optILt : Option ℤ → Option ℤ → Bool
  | none, none => false
  | none, some _ => true
  | some _, none => false
  | some a, some b => decide (a < b)

/-- Clause `ORDER BY importance_score DESC, access_count DESC, timestamp DESC` as
a strictly-after test for the stable sort. -/
def candLt (a b : MemoryRecord) : Bool :=
  optQLt a.importance_score b.importance_score ||
  (a.importance_score == b.importance_score &&
    (optILt a.access_count b.access_count ||
     (a.access_count == b.access_count && decide (a.timestamp < b.timestamp))))

/-- Candidate filter of `recallRelevantMemories`: the project and entity
disjuncts are only added when the context carries them; the time-window
exclusion and the archived test are always present. -/
def candFilter (ctx : ContextAnalysis) (cutoff : Int) (m : MemoryRecord) : Bool :=
  (ctx.active_projects.isEmpty ||
    (match m.project with
     | some p => ctx.active_projects.contains p
     | none => false)) &&
  (ctx.active_entities.isEmpty ||
    (match m.entities with
     | some raw => (ctx.active_entities.take 5).any (fun e => likeContains raw e)
     | none => false)) &&
  decide (m.timestamp < cutoff) && !m.archived

/-- Projection of a candidate row into a `RecalledMemory` (the `scored`
map of `recallRelevantMemories`). -/
def scoreRecalled (ctx : ContextAnalysis) (m : MemoryRecord) : RecalledMemory :=
  { id := m.id, type := m.type, content := strTake (m.content.getD "") 300,
    project := m.project, relevance_score := calculateRelevance m ctx,
    recall_reason := getRecallReason m ctx }

/-- Function `recallRelevantMemories` of `memory_recall_context.ts`: fetch up to
`2 * limit` candidates, score them, re-sort by relevance, keep `limit`. -/
def recallRelevantMemories (db : List MemoryRecord) (ctx : ContextAnalysis)
    (cutoff : Int) (limit : Nat) : List RecalledMemory :=
  (sortByStable (fun a b => decide (a.relevance_score < b.relevance_score))
    (((sortByStable candLt (db.filter (candFilter ctx cutoff))).take (limit * 2)).map
      (scoreRecalled ctx))).take limit

/-- Function `generateContextSuggestions` of `memory_recall_context.ts`. -/
def generateContextSuggestions (ctx : ContextAnalysis) (recalled : List RecalledMemory) :
    List String :=
  (if ctx.context_type == some "debugging" then
    ["Consider checking past error resolutions for similar issues."] else []) ++
  (if recalled.isEmpty then []
   else
    let high := recalled.filter (fun m => decide (mkRat 1 2 < m.relevance_score))
    if high.isEmpty then []
    else ["Found " ++ toString high.length ++ " highly relevant past memories."]) ++
  (match ctx.current_focus with
   | some f =>
       let parts := f.splitOn ":"
       if parts.head? == some "entity" then
         ["Deep focus on \"" ++ ((parts.drop 1).head?.getD "undefined") ++
          "\" detected. Related memories recalled."]
       else []
   | none => [])

/-- Body of `recallContext` of `memory_recall_context.ts`. -/
def recallContextResultOf (db : List MemoryRecord) (input : RecallInput) (now : Int) :
    RecallContextResult :=
  let cutoff := now - input.recent_minutes * 60000
  let recent := fetchRecent db cutoff input.project input.file_path
  let context := analyzeContext recent
  if context.active then
    let recalled := recallRelevantMemories db context cutoff input.limit
    { context := context, recalled_memories := recalled,
      suggestions := generateContextSuggestions context recalled }
  else
    { context := context, recalled_memories := [],
      suggestions := ["No recent activity detected. Start working to build context."] }

/-- Handler `recallContext` with the store threaded through explicitly.  The
handler only issues `SELECT` statements — no `UPDATE` appears anywhere in
`memory_recall_context.ts` — so the store component of the outcome is the
input store. -/
def recallContextRun (db : List MemoryRecord) (input : RecallInput) (now : Int) :
    RecallContextResult × List MemoryRecord :=
  (recallContextResultOf db input now, db)

/-! ### Suggestion Engine (`memory_suggestions.ts`) -/

/-- Type of a `ForgottenKnowledge` entry produced by `getForgottenKnowledge`. -/
structure ForgottenEntry where
  memory_id : String
  content_preview : String
  project : Option String
  importance_score : Option ℚ
  days_since_access : Int
  reason : String
  deriving DecidableEq

/-- Type `PotentialIssue` of `memory_suggestions.ts`. -/
structure PotentialIssue where
  type : String
  title : String
  description : String
  severity : String
  memory_id : Option String
  deriving DecidableEq

/-- Type `Suggestion` of `memory_suggestions.ts`. -/
structure Suggestion where
  type : String
  title : String
  description : String
  priority : Int
  action : String
  memory_id : Option String
  reason : Option String
  deriving DecidableEq

/-- Type `SuggestionsResult` of `memory_suggestions.ts`. -/
structure SuggestionsResult where
  suggestions : List Suggestion
  potential_issues : List PotentialIssue
  forgotten_knowledge : List ForgottenEntry
  summary : String
  deriving DecidableEq

/-- Clause `ORDER BY importance_score DESC` as a strictly-after test. -/
def impLt (a b : MemoryRecord) : Bool :=
  optQLt a.importance_score b.importance_score

/-- Clause `ORDER BY timestamp DESC` as a strictly-after test. -/
def tsLt (a b : MemoryRecord) : Bool :=
  decide (a.timestamp < b.timestamp)

/-- WHERE clause of the forgotten-knowledge query: `importance_score >=
0.6 AND (last_accessed < now - 14 days OR last_accessed IS NULL) AND
archived = 0`, plus the optional project hint. -/
def forgottenFilter (proj : Option String) (now : Int) (m : MemoryRecord) : Bool :=
  (match m.importance_score with
   | some x => decide (mkRat 6 10 ≤ x)
   | none => false) &&
  (match m.last_accessed with
   | some t => decide (t < now - 14 * 86400000)
   | none => true) &&
  !m.archived && hintProjOk proj m

/-- Row-to-entry map of `getForgottenKnowledge`.  `m.last_accessed ? ... :
999` is a truthiness test, so a stored `0` also yields the 999 sentinel;
`Math.floor` of the day quotient is integer floor division. -/
def mkForgottenEntry (now : Int) (m : MemoryRecord) : ForgottenEntry :=
  let daysSince : Int :=
    match m.last_accessed with
    | some t => if t = 0 then 999 else (now - t).fdiv 86400000
    | none => 999
  { memory_id := m.id,
    content_preview := strTake (m.content.getD "") 200,
    project := m.project,
    importance_score := m.importance_score,
    days_since_access := daysSince,
    reason := "Important memory (" ++
      (match m.importance_score with
       | some x => toFixed2 x
       | none => "undefined") ++
      ") not accessed in " ++ toString daysSince ++ " days" }

/-- Function `getForgottenKnowledge` of `memory_suggestions.ts`. -/
def getForgottenKnowledge (db : List MemoryRecord) (proj : Option String) (now : Int) :
    List ForgottenEntry :=
  ((sortByStable impLt (db.filter (forgottenFilter proj now))).take 10).map (mkForgottenEntry now)

/-- First line of a record containing todo/fixme/hack, case-insensitively
(`for ... of lines` with `break`). -/
def todoLine (m : MemoryRecord) : Option String :=
  ((m.content.getD "").splitOn "\n").find? (fun line =>
    let l := line.toLower
    strContains l "todo" || strContains l "fixme" || strContains l "hack")

/-- WHERE clause of the TODO query (SQLite `LIKE` is ASCII
case-insensitive). -/
def todoFilter (proj : Option String) (m : MemoryRecord) : Bool :=
  (match m.content with
   | some c => likeContains c "TODO" || likeContains c "FIXME" || likeContains c "HACK"
   | none => false) &&
  !m.archived && hintProjOk proj m

/-- WHERE clause of the repeated-error query. -/
def errorFilter (proj : Option String) (weekAgo : Int) (m : MemoryRecord) : Bool :=
  (match m.content with
   | some c => likeContains c "error" || likeContains c "Error" || likeContains c "exception"
   | none => false) &&
  decide (weekAgo < m.timestamp) && !m.archived && hintProjOk proj m

/-- Keys of a `GROUP BY`, in first-encounter order of the scanned rows. -/
def firstOccurrences (l : List String) : List String :=
  l.foldl (fun acc h => if acc.contains h then acc else acc ++ [h]) []

/-- Function `detectPotentialIssues` of `memory_suggestions.ts`: at most one medium
issue per TODO record (newest 10), plus the repeated-error groups
(`HAVING count > 1 LIMIT 5`, severity high at count ≥ 3), all capped at
5. -/
def detectPotentialIssues (db : List MemoryRecord) (proj : Option String) (now : Int) :
    List PotentialIssue :=
  let todos := (sortByStable tsLt (db.filter (todoFilter proj))).take 10
  let todoIssues := todos.filterMap (fun m =>
    (todoLine m).map (fun line => (
      { type := "unresolved_todo", title := "Unresolved TODO",
        description := strTake line.trim 100, severity := "medium",
        memory_id := some m.id } : PotentialIssue)))
  let errRows := db.filter (errorFilter proj (now - 7 * 86400000))
  let groups := (firstOccurrences (errRows.map (fun m => m.content_hash))).map (fun h =>
    errRows.filter (fun m => m.content_hash == h))
  let repeated := (groups.filter (fun g => 1 < g.length)).take 5
  let errIssues := repeated.map (fun g =>
    ({ type := "repeated_error",
       title := "Repeated error (" ++ toString g.length ++ " times)",
       description := strTake ((g.head?.bind (fun m => m.content)).getD "") 100 ++ "...",
       severity := if 3 ≤ g.length then "high" else "medium",
       memory_id := none } : PotentialIssue))
  (todoIssues ++ errIssues).take 5

/-- Clause `ORDER BY importance_score DESC, timestamp DESC`. -/
def bpLt (a b : MemoryRecord) : Bool :=
  optQLt a.importance_score b.importance_score ||
  (a.importance_score == b.importance_score && decide (a.timestamp < b.timestamp))

/-- WHERE clause of the best-practices query. -/
def bpFilter (proj : Option String) (m : MemoryRecord) : Bool :=
  (m.type == "decision" || m.type == "insight" || m.type == "note") &&
  (match m.importance_score with
   | some x => decide (mkRat 7 10 ≤ x)
   | none => false) &&
  !m.archived && hintProjOk proj m

/-- Function `getBestPractices` of `memory_suggestions.ts`. -/
def getBestPractices (db : List MemoryRecord) (proj : Option String) : List MemoryRecord :=
  (sortByStable bpLt (db.filter (bpFilter proj))).take 10

/-- Function `generateSummary` of `memory_suggestions.ts` (applied to the sorted
suggestion list before the final `slice`). -/
def generateSummary (sugs : List Suggestion) (issues : List PotentialIssue)
    (forgotten : List ForgottenEntry) : String :=
  let parts :=
    (if sugs.isEmpty then [] else [toString sugs.length ++ " suggestions available"]) ++
    (let hi := (issues.filter (fun i => i.severity == "high")).length
     if 0 < hi then [toString hi ++ " high-priority issues detected"] else []) ++
    (if forgotten.isEmpty then [] else [toString forgotten.length ++ " important memories need review"])
  if parts.isEmpty then "No suggestions at this time." else String.intercalate ". " parts ++ "."

/-- Pure merge step of `getSuggestions`: top-2 forgotten items (priority
7), top-2 high-severity issues (priority 9), top-2 best practices
(priority 5), the fixed debugging suggestion (priority 8), stable-sorted
by priority descending and cut to `limit`; issue and forgotten lists are
returned unmerged. -/
def buildSuggestionsResult (forgotten : List ForgottenEntry) (issues : List PotentialIssue)
    (practices : List MemoryRecord) (ctxTypeHint : Option String) (limit : Nat) :
    SuggestionsResult :=
  let s1 := (forgotten.take 2).map (fun item =>
    ({ type := "forgotten_knowledge", title := "Review forgotten important memory",
       description := item.content_preview, priority := 7, action := "review",
       memory_id := some item.memory_id, reason := some item.reason } : Suggestion))
  let s2 := ((issues.filter (fun i => i.severity == "high")).take 2).map (fun issue =>
    ({ type := "issue_suggestion", title := issue.title, description := issue.description,
       priority := 9, action := "investigate", memory_id := issue.memory_id,
       reason := some "Potential issue detected" } : Suggestion))
  let s3 := (practices.take 2).map (fun p =>
    ({ type := "best_practice", title := "Relevant past insight",
       description := p.content.getD "", priority := 5, action := "review",
       memory_id := some p.id, reason := some "Historical pattern" } : Suggestion))
  let s4 :=
    if ctxTypeHint == some "debugging" then
      [({ type := "pattern_suggestion", title := "Check error patterns",
          description := "You appear to be debugging. Consider checking past error resolutions.",
          priority := 8, action := "search_errors", memory_id := none,
          reason := some "Debugging context detected" } : Suggestion)]
    else []
  let sorted := sortByStable (fun a b => decide (a.priority < b.priority)) (s1 ++ s2 ++ s3 ++ s4)
  { suggestions := sorted.take limit, potential_issues := issues,
    forgotten_knowledge := forgotten, summary := generateSummary sorted issues forgotten }

/-- Handler `getSuggestions` of `memory_suggestions.ts` with the outcome of each
sub-scan made explicit: the whole body sits in one `try` whose `catch`
rethrows, so a rejected scan propagates as the failure of the entire
call. -/
def getSuggestionsE (fk : Except Unit (List ForgottenEntry))
    (iss : Except Unit (List PotentialIssue)) (bp : Except Unit (List MemoryRecord))
    (ctxTypeHint : Option String) (limit : Nat) : Except Unit SuggestionsResult := do
  let forgotten ← fk
  let issues ← iss
  let practices ← bp
  pure (buildSuggestionsResult forgotten issues practices ctxTypeHint limit)

/-- Handler `getSuggestions` when every scan succeeds. -/
def getSuggestionsTool (db : List MemoryRecord) (proj ctxTypeHint : Option String)
    (limit : Nat) (now : Int) : SuggestionsResult :=
  buildSuggestionsResult (getForgottenKnowledge db proj now)
    (detectPotentialIssues db proj now) (getBestPractices db proj) ctxTypeHint limit

/-! ### `ContextClient` (`src/cognitive/context-client.ts`) -/

/-- Type `ContextAnalysis` of the client, which also carries `active_files` and
`time_window_minutes`. -/
structure ClientContextAnalysis where
  active : Bool
  context_type : Option String
  primary_project : Option String
  active_projects : List String
  active_entities : List String
  active_files : List String
  current_focus : Option String
  recent_activity_count : Nat
  time_window_minutes : Int
  deriving DecidableEq

/-- Entity-focus fallback of `ContextClient.inferFocus`. -/
def entityFocusOf (ec : List (String × Nat)) : Option String :=
  match (sortEntriesDesc ec).head? with
  | some te => if 3 ≤ te.2 then some ("entity:" ++ te.1) else none
  | none => none

/-- Method `ContextClient.inferFocus`: unlike the tool version, the top FILE is
checked first, the top entity only as a fallback. -/
def clientInferFocus (ms : List MemoryRecord) (fc ec : List (String × Nat)) :
    Option String :=
  if ms.isEmpty then none
  else
    match (sortEntriesDesc fc).head? with
    | some tf => if 3 ≤ tf.2 then some ("file:" ++ tf.1) else entityFocusOf ec
    | none => entityFocusOf ec

/-- Method `ContextClient.analyzeContext`. -/
def clientAnalyzeContext (db : List MemoryRecord) (now windowMinutes : Int)
    (projHint fileHint : Option String) : ClientContextAnalysis :=
  let cutoff := now - windowMinutes * 60000
  let recent := fetchRecent db cutoff projHint fileHint
  if recent.isEmpty then
    { active := false, context_type := none, primary_project := none,
      active_projects := [], active_entities := [], active_files := [],
      current_focus := none, recent_activity_count := 0,
      time_window_minutes := windowMinutes }
  else
    let pc := projectCountsOf recent
    let ec := entityCountsOf recent
    let tc := typeCountsOf recent
    let fc := fileCountsOf recent
    let sortedProjects := (sortEntriesDesc pc).map Prod.fst
    { active := true,
      context_type := some (inferContextType tc recent),
      primary_project := sortedProjects.head?,
      active_projects := sortedProjects.take 3,
      active_entities := ((sortEntriesDesc ec).take 10).map Prod.fst,
      active_files := ((sortEntriesDesc fc).take 5).map Prod.fst,
      current_focus := clientInferFocus recent fc ec,
      recent_activity_count := recent.length,
      time_window_minutes := windowMinutes }

/-! ### Spec-side restatement of the Relevance Scorer (§4.2 of the spec)

These definitions follow the wording of the spec, to be compared with the
code-side `calculateRelevance`. -/

/-- The candidate's entity set per the spec: the parsed entity list (empty
when the column is null or unparsable), as a set (no duplicates). -/
def candidateEntities (m : MemoryRecord) : List String :=
  ((m.entities.bind parseEntities).getD []).dedup

/-- Spec wording: 0.35 if the candidate's project equals the context's
primary project, else 0.20 if it is in the active projects, else 0. -/
def specProjectTerm (m : MemoryRecord) (ctx : ContextAnalysis) : ℚ :=
  if m.project = ctx.primary_project then 35/100
  else if (match m.project with
           | some p => ctx.active_projects.contains p
           | none => false) then 2/10
  else 0

/-- Spec wording: min(0.30, 0.10 * number of candidate entities that
appear in the active entities). -/
def specEntityTerm (m : MemoryRecord) (ctx : ContextAnalysis) : ℚ :=
  min (3/10)
    ((1/10) *
      (((candidateEntities m).filter (fun e => ctx.active_entities.contains e)).length : ℚ))

/-- Claim wording taken literally: 0.20 * importance score, defaulting to
0.5 only when the score is unset. -/
def specImportanceTermUnsetOnly (m : MemoryRecord) : ℚ :=
  (2/10) * (match m.importance_score with
            | none => 1/2
            | some x => x)

/-- Amended wording: 0.20 * importance score, defaulting to 0.5 when the
score is unset or stored as 0 (the JavaScript `||` default). -/
def specImportanceTerm (m : MemoryRecord) : ℚ :=
  (2/10) * (match m.importance_score with
            | none => 1/2
            | some x => if x = 0 then 1/2 else x)

/-- Spec wording: 0.10 * min(1, access count / 10). -/
def specAccessTerm (m : MemoryRecord) : ℚ :=
  (1/10) * min 1 ((match m.access_count with
                   | none => (0 : ℚ)
                   | some a => (a : ℚ)) / 10)

/-- The relevance formula exactly as the claim states it. -/
def specRelevanceLiteral (m : MemoryRecord) (ctx : ContextAnalysis) : ℚ :=
  round3 (specProjectTerm m ctx + specEntityTerm m ctx +
    specImportanceTermUnsetOnly m + specAccessTerm m)

/-- The relevance formula with the importance default amended to also
fire on a stored 0. -/
def specRelevance (m : MemoryRecord) (ctx : ContextAnalysis) : ℚ :=
  round3 (specProjectTerm m ctx + specEntityTerm m ctx +
    specImportanceTerm m + specAccessTerm m)

/-- Counting an intersection from either side gives the same number when
both lists are duplicate free. -/
theorem length_filter_contains_comm {a b : List String} (ha : a.Nodup) (hb : b.Nodup) :
    (a.filter (fun x => b.contains x)).length = (b.filter (fun x => a.contains x)).length := by
  have key : ∀ (u v : List String), u.Nodup →
      (u.filter (fun x => v.contains x)).length = (u.toFinset ∩ v.toFinset).card := by
    intro u v hu
    have h1 : (u.filter (fun x => v.contains x)).Nodup := hu.filter _
    rw [← List.toFinset_card_of_nodup h1, List.toFinset_filter]
    congr 1
    ext x
    simp
  rw [key a b ha, key b a hb, Finset.inter_comm]

theorem projTerm_eq_spec (m : MemoryRecord) (ctx : ContextAnalysis)
    (hne : "" ∉ ctx.active_projects) :
    codeProjectTerm m ctx = specProjectTerm m ctx := by
  unfold codeProjectTerm specProjectTerm
  by_cases h1 : m.project = ctx.primary_project
  · simp [h1]
  · simp only [if_neg h1]
    cases hmp : m.project with
    | none => rfl
    | some p =>
        by_cases hp : p = ""
        · subst hp
          have hc : ctx.active_projects.contains "" = false := by
            simpa using hne
          simp [hc, hne]
        · simp [hp]

theorem entityTerm_eq_spec (m : MemoryRecord) (ctx : ContextAnalysis)
    (hnd : ctx.active_entities.Nodup) :
    codeEntityTerm m ctx = specEntityTerm m ctx := by
  unfold codeEntityTerm specEntityTerm candidateEntities
  cases hme : m.entities with
  | none =>
      simp [min_def]
      norm_num
  | some raw =>
      by_cases hraw : raw = ""
      · subst hraw
        have hp : parseEntities "" = none := rfl
        simp [hp, min_def]
        norm_num
      · by_cases hae : ctx.active_entities.isEmpty
        · have hnil : ctx.active_entities = [] := by
            cases hael : ctx.active_entities with
            | nil => rfl
            | cons x xs => rw [hael] at hae; simp [List.isEmpty] at hae
          simp [hraw, hae, hnil, min_def]
          norm_num
        · have hguard : (decide (raw = "") || ctx.active_entities.isEmpty) = false := by
            simp [hraw, hae]
          cases hpe : parseEntities raw with
          | none =>
              simp [hraw, hae, hpe, min_def]
              norm_num
          | some es =>
              simp only [hguard, Bool.false_eq_true, if_false, hpe,
                Option.some_bind, Option.getD_some]
              have hfc : ctx.active_entities.filter (fun e => es.contains e) =
                  ctx.active_entities.filter (fun e => es.dedup.contains e) := by
                apply List.filter_congr
                intro x _
                simp [List.mem_dedup]
              rw [hfc, length_filter_contains_comm hnd es.nodup_dedup]
              congr 1
              ring

theorem impTerm_eq_spec (m : MemoryRecord) :
    codeImportanceTerm m = specImportanceTerm m := by
  unfold codeImportanceTerm specImportanceTerm
  cases m.importance_score <;> simp [mul_comm]

theorem accTerm_eq_spec (m : MemoryRecord) :
    codeAccessTerm m = specAccessTerm m := by
  unfold codeAccessTerm specAccessTerm
  cases m.access_count <;> simp [mul_comm]

/-- Rounding keeps a sum lying in the component range inside `[0, 1]`. -/
theorem round3_bounds {s : ℚ} (h0 : 0 ≤ s) (h1 : s ≤ 19/20) :
    0 ≤ round3 s ∧ round3 s ≤ 1 := by
  unfold round3
  constructor
  · apply div_nonneg _ (by norm_num)
    have h : (0 : ℤ) ≤ ⌊s * 1000 + 1/2⌋ := Int.floor_nonneg.mpr (by linarith)
    exact_mod_cast h
  · rw [div_le_one (by norm_num)]
    have h2 : ((⌊s * 1000 + 1/2⌋ : ℤ) : ℚ) ≤ s * 1000 + 1/2 := Int.floor_le _
    linarith

/-- Concrete-row builder used by the example stores below (fields in
declaration order). -/
def mkRec (id ty : String) (ts : Int) (proj fp ent c : Option String)
    (imp : Option ℚ) (ac la : Option Int) (arch : Bool) (ch : String) : MemoryRecord :=
  { id := id, type := ty, content := c, project := proj, file_path := fp,
    entities := ent, tags := none, timestamp := ts, importance_score := imp,
    access_count := ac, last_accessed := la, archived := arch, content_hash := ch }

/-- C1: every relevance score is the rounded sum of the four spec
components once the importance default is amended; hypotheses state the
well-formedness every genuine snapshot has (duplicate-free active
entities, no empty-string active project). -/
theorem c1_relevance_matches_amended_formula (m : MemoryRecord) (ctx : ContextAnalysis)
    (hnd : ctx.active_entities.Nodup) (hne : "" ∉ ctx.active_projects) :
    calculateRelevance m ctx = specRelevance m ctx := by
  unfold calculateRelevance specRelevance
  rw [projTerm_eq_spec m ctx hne, entityTerm_eq_spec m ctx hnd, impTerm_eq_spec,
    accTerm_eq_spec]

/-- Candidate with a stored importance of exactly 0. -/
def cexRelevanceRecord : MemoryRecord :=
  mkRec "m0" "code" 0 none none none none (some 0) (some 0) none false "h0"

/-- Snapshot whose primary project differs from the candidate's. -/
def cexRelevanceCtx : ContextAnalysis :=
  { active := true, context_type := some "coding", primary_project := some "P",
    active_projects := ["P"], active_entities := [], current_focus := none,
    recent_activity_count := 1 }

/-- C1 counterexample: at importance 0 the code scores 0.1 (the `||`
default yields 0.5 · 0.2) while the claim's formula gives 0. -/
theorem c1_literal_formula_counterexample :
    calculateRelevance cexRelevanceRecord cexRelevanceCtx ≠
      specRelevanceLiteral cexRelevanceRecord cexRelevanceCtx := by
  have hA : calculateRelevance cexRelevanceRecord cexRelevanceCtx = 1/10 := by
    simp only [calculateRelevance, codeProjectTerm, codeEntityTerm, codeImportanceTerm,
      codeAccessTerm, cexRelevanceRecord, cexRelevanceCtx, mkRec, round3]
    rw [if_neg (by simp)]
    norm_num
  have hB : specRelevanceLiteral cexRelevanceRecord cexRelevanceCtx = 0 := by
    simp only [specRelevanceLiteral, specProjectTerm, specEntityTerm,
      specImportanceTermUnsetOnly, specAccessTerm, candidateEntities,
      cexRelevanceRecord, cexRelevanceCtx, mkRec, round3]
    rw [if_neg (by simp)]
    norm_num
  rw [hA, hB]
  norm_num

/-- Candidate and snapshot exercising every component of the formula. -/
def witRelevanceRecord : MemoryRecord :=
  mkRec "w1" "code" 0 (some "apollo") none (some "[\"fetchUser\",\"auth\"]")
    (some "snippet") (some (mkRat 8 10)) (some 5) none false "hw"

/-- A well-formed snapshot for the C1 witness. -/
def witRelevanceCtx : ContextAnalysis :=
  { active := true, context_type := some "coding", primary_project := some "apollo",
    active_projects := ["apollo", "zeus"], active_entities := ["fetchUser", "parseConfig"],
    current_focus := none, recent_activity_count := 3 }

/-- Witness for C1 at a concrete candidate and snapshot. -/
theorem c1_witness :
    (witRelevanceCtx.active_entities.Nodup ∧ "" ∉ witRelevanceCtx.active_projects) ∧
    calculateRelevance witRelevanceRecord witRelevanceCtx =
      specRelevance witRelevanceRecord witRelevanceCtx :=
  ⟨⟨by decide, by decide⟩,
    c1_relevance_matches_amended_formula witRelevanceRecord witRelevanceCtx
      (by decide) (by decide)⟩

/-- C6: for importance in [0,1] and non-negative access count the
relevance score lies in [0, 1]. -/
theorem c6_score_bounds (m : MemoryRecord) (ctx : ContextAnalysis)
    (himp : match m.importance_score with
            | some x => 0 ≤ x ∧ x ≤ 1
            | none => True)
    (hacc : match m.access_count with
            | some a => 0 ≤ a
            | none => True) :
    0 ≤ calculateRelevance m ctx ∧ calculateRelevance m ctx ≤ 1 := by
  have hp : 0 ≤ codeProjectTerm m ctx ∧ codeProjectTerm m ctx ≤ 7/20 := by
    unfold codeProjectTerm
    split_ifs <;> norm_num
  have he : 0 ≤ codeEntityTerm m ctx ∧ codeEntityTerm m ctx ≤ 3/10 := by
    unfold codeEntityTerm
    cases m.entities with
    | none => norm_num
    | some raw =>
        dsimp only
        split_ifs
        · norm_num
        · cases parseEntities raw with
          | none => norm_num
          | some es =>
              refine ⟨le_min (by norm_num) ?_, min_le_left _ _⟩
              positivity
  have hi : 0 ≤ codeImportanceTerm m ∧ codeImportanceTerm m ≤ 1/5 := by
    unfold codeImportanceTerm
    cases hmi : m.importance_score with
    | none => norm_num
    | some x =>
        have himp' : 0 ≤ x ∧ x ≤ 1 := by rw [hmi] at himp; exact himp
        dsimp only
        split_ifs
        · norm_num
        · constructor <;> nlinarith [himp'.1, himp'.2]
  have ha : 0 ≤ codeAccessTerm m ∧ codeAccessTerm m ≤ 1/10 := by
    unfold codeAccessTerm
    cases hma : m.access_count with
    | none => norm_num
    | some a =>
        have ha' : (0 : ℤ) ≤ a := by rw [hma] at hacc; exact hacc
        have haq : (0 : ℚ) ≤ (a : ℚ) := by exact_mod_cast ha'
        have hmin0 : 0 ≤ min 1 ((a : ℚ)/10) := le_min (by norm_num) (by positivity)
        have hmin1 : min 1 ((a : ℚ)/10) ≤ 1 := min_le_left _ _
        constructor <;> nlinarith
  unfold calculateRelevance
  exact round3_bounds (by linarith [hp.1, he.1, hi.1, ha.1])
    (by linarith [hp.2, he.2, hi.2, ha.2])

/-- Witness for C6 at a concrete candidate. -/
theorem c6_witness :
    ((match witRelevanceRecord.importance_score with
      | some x => 0 ≤ x ∧ x ≤ 1
      | none => True) ∧
     (match witRelevanceRecord.access_count with
      | some a => 0 ≤ a
      | none => True)) ∧
    (0 ≤ calculateRelevance witRelevanceRecord cexRelevanceCtx ∧
     calculateRelevance witRelevanceRecord cexRelevanceCtx ≤ 1) :=
  ⟨⟨show (0:ℚ) ≤ mkRat 8 10 ∧ mkRat 8 10 ≤ 1 by decide,
    show (0:ℤ) ≤ 5 by decide⟩,
    c6_score_bounds witRelevanceRecord cexRelevanceCtx
      (show (0:ℚ) ≤ mkRat 8 10 ∧ mkRat 8 10 ≤ 1 by decide)
      (show (0:ℤ) ≤ 5 by decide)⟩

/-- C10: when both the candidate's project and the snapshot's primary
project are null, the full 0.35 project-match component is granted. -/
theorem c10_null_project_full_match (m : MemoryRecord) (ctx : ContextAnalysis)
    (h1 : m.project = none) (h2 : ctx.primary_project = none) :
    calculateRelevance m ctx =
      round3 (35/100 + codeEntityTerm m ctx + codeImportanceTerm m + codeAccessTerm m) := by
  unfold calculateRelevance
  have hp : codeProjectTerm m ctx = 35/100 := by
    unfold codeProjectTerm
    rw [h1, h2]
    simp
  rw [hp]

/-- Candidate with no project. -/
def witNullProjRecord : MemoryRecord :=
  mkRec "n1" "note" 0 none none none (some "note body") (some (mkRat 1 2)) (some 0) none false "hn"

/-- Snapshot whose window had no projects at all. -/
def witNullProjCtx : ContextAnalysis :=
  { active := true, context_type := some "documentation", primary_project := none,
    active_projects := [], active_entities := ["auth"], current_focus := none,
    recent_activity_count := 2 }

/-- Witness for C10 at a concrete candidate and snapshot. -/
theorem c10_witness :
    (witNullProjRecord.project = none ∧ witNullProjCtx.primary_project = none) ∧
    calculateRelevance witNullProjRecord witNullProjCtx =
      round3 (35/100 + codeEntityTerm witNullProjRecord witNullProjCtx +
        codeImportanceTerm witNullProjRecord + codeAccessTerm witNullProjRecord) :=
  ⟨⟨rfl, rfl⟩, c10_null_project_full_match witNullProjRecord witNullProjCtx rfl rfl⟩

/-- C2: every recalled memory corresponds to a non-archived store record
whose timestamp is strictly before the exclusion cutoff — the context
window and the recall pool never overlap. -/
theorem c2_recall_excludes_window (db : List MemoryRecord) (ctx : ContextAnalysis)
    (cutoff : Int) (limit : Nat) (rm : RecalledMemory)
    (h : rm ∈ recallRelevantMemories db ctx cutoff limit) :
    ∃ m ∈ db, m.id = rm.id ∧ m.timestamp < cutoff ∧ m.archived = false := by
  unfold recallRelevantMemories at h
  have h1 := List.mem_of_mem_take h
  rw [mem_sortByStable] at h1
  rcases List.mem_map.mp h1 with ⟨m, hm, hrm⟩
  have h2 := List.mem_of_mem_take hm
  rw [mem_sortByStable] at h2
  rcases List.mem_filter.mp h2 with ⟨hmdb, hcond⟩
  unfold candFilter at hcond
  simp only [Bool.and_eq_true, decide_eq_true_eq, Bool.not_eq_true'] at hcond
  exact ⟨m, hmdb, by rw [← hrm]; rfl, hcond.1.2, hcond.2⟩

/-- The single old record of the C2 witness store. -/
def witRecallRec : MemoryRecord :=
  mkRec "m1" "code" 1000 (some "apollo") none none (some "old snippet")
    (some (mkRat 8 10)) (some 0) none false "h1"

/-- One-record store for the C2 witness. -/
def witRecallDb : List MemoryRecord := [witRecallRec]

/-- Snapshot under which the witness store is recalled. -/
def witRecallCtx : ContextAnalysis :=
  { active := true, context_type := some "coding", primary_project := some "apollo",
    active_projects := ["apollo"], active_entities := [], current_focus := none,
    recent_activity_count := 1 }

/-- The recalled projection of the witness record. -/
def witRecalled : RecalledMemory := scoreRecalled witRecallCtx witRecallRec

/-- Witness for C2 at a concrete store, snapshot and cutoff. -/
theorem c2_witness :
    (witRecalled ∈ recallRelevantMemories witRecallDb witRecallCtx 500000 10) ∧
    ∃ m ∈ witRecallDb, m.id = witRecalled.id ∧ m.timestamp < 500000 ∧ m.archived = false :=
  have hmem : witRecalled ∈ recallRelevantMemories witRecallDb witRecallCtx 500000 10 :=
    List.mem_singleton.mpr rfl
  ⟨hmem, c2_recall_excludes_window witRecallDb witRecallCtx 500000 10 witRecalled hmem⟩

/-- C3 (amended): the recall handler never writes to the store — the
record list after any recall call is exactly the list before it, so
access counts and last-accessed stamps are untouched. -/
theorem c3_recall_is_pure_read (db : List MemoryRecord) (input : RecallInput) (now : Int) :
    (recallContextRun db input now).2 = db := rfl

/-- In-window activity record of the C3 counterexample store. -/
def cexStoreRecA : MemoryRecord :=
  mkRec "a1" "code" 999900000 (some "apollo") none none none none none none false "ha"

/-- Old record that recall returns in the C3 counterexample. -/
def cexStoreRecM1 : MemoryRecord :=
  mkRec "m1" "code" 1000 (some "apollo") none none (some "old snippet")
    (some (mkRat 8 10)) (some 5) (some 100) false "hm"

/-- Store for the C3 counterexample. -/
def cexStoreDb : List MemoryRecord := [cexStoreRecA, cexStoreRecM1]

/-- Default input of the recall tool. -/
def cexStoreInput : RecallInput :=
  { project := none, file_path := none, recent_minutes := 30, limit := 10 }

/-- C3 counterexample: the call returns record m1 (whose stored
access_count is 5 and last_accessed is 100), yet the store after the call
equals the store before it — no increment, no new last_accessed. -/
theorem c3_access_not_incremented_counterexample :
    ((recallContextRun cexStoreDb cexStoreInput 1000000000).1.recalled_memories.map
      (fun r => r.id) = ["m1"]) ∧
    (recallContextRun cexStoreDb cexStoreInput 1000000000).2 = cexStoreDb ∧
    cexStoreDb.map (fun m => (m.access_count, m.last_accessed)) =
      [(none, none), (some 5, some 100)] :=
  ⟨by decide, rfl, by decide⟩

/-- C7: a call over a window containing no non-archived records returns
exactly the inactive result: inactive snapshot, empty recall list, the
single fixed suggestion string, and an unchanged store. -/
theorem c7_inactive_on_empty_window (db : List MemoryRecord) (input : RecallInput)
    (now : Int)
    (h : ∀ m ∈ db, m.archived = false → ¬ (now - input.recent_minutes * 60000 < m.timestamp)) :
    recallContextRun db input now =
      ({ context := inactiveContext, recalled_memories := [],
         suggestions := ["No recent activity detected. Start working to build context."] },
       db) := by
  have hfr : fetchRecent db (now - input.recent_minutes * 60000) input.project
      input.file_path = [] := by
    unfold fetchRecent
    have hf : db.filter (fun m =>
        decide (now - input.recent_minutes * 60000 < m.timestamp) && !m.archived &&
          hintProjOk input.project m && hintFileOk input.file_path m) = [] := by
      rw [List.filter_eq_nil_iff]
      intro m hm
      simp only [Bool.and_eq_true, decide_eq_true_eq, Bool.not_eq_true']
      rintro ⟨⟨⟨hts, harch⟩, _⟩, _⟩
      exact h m hm harch hts
    rw [hf]
    rfl
  simp only [recallContextRun, recallContextResultOf]
  rw [hfr]
  rfl

/-- Witness for C7 on the empty store. -/
theorem c7_witness :
    (∀ m ∈ ([] : List MemoryRecord), m.archived = false →
      ¬ ((1000000000 : Int) - cexStoreInput.recent_minutes * 60000 < m.timestamp)) ∧
    recallContextRun [] cexStoreInput 1000000000 =
      ({ context := inactiveContext, recalled_memories := [],
         suggestions := ["No recent activity detected. Start working to build context."] },
       []) :=
  ⟨by simp, c7_inactive_on_empty_window [] cexStoreInput 1000000000 (by simp)⟩

/-- C4 (amended): a failing sub-scan makes the whole suggestions call
fail — the error propagates through the single try/catch; no category is
degraded to an empty list. -/
theorem c4_scan_failure_propagates (fk : Except Unit (List ForgottenEntry))
    (iss : Except Unit (List PotentialIssue)) (bp : Except Unit (List MemoryRecord))
    (ctxTypeHint : Option String) (limit : Nat)
    (h : fk = Except.error () ∨ iss = Except.error () ∨ bp = Except.error ()) :
    getSuggestionsE fk iss bp ctxTypeHint limit = Except.error () := by
  rcases h with h | h | h
  · subst h; rfl
  · subst h
    cases fk with
    | error e => rfl
    | ok v => rfl
  · subst h
    cases fk with
    | error e => rfl
    | ok v =>
        cases iss with
        | error e => rfl
        | ok w => rfl

/-- A concrete medium-severity issue returned by a healthy issue scan. -/
def cexIssue : PotentialIssue :=
  { type := "unresolved_todo", title := "Unresolved TODO",
    description := "TODO: fix auth bug", severity := "medium", memory_id := some "t1" }

/-- C4 counterexample: with only the forgotten-knowledge scan failing and
both other scans succeeding, the call yields an error instead of a
well-formed result with an empty forgotten category. -/
theorem c4_no_partial_isolation_counterexample :
    getSuggestionsE (Except.error ()) (Except.ok [cexIssue]) (Except.ok []) none 5 =
      Except.error () := rfl

/-- Witness for C4 at a concrete failing scan. -/
theorem c4_witness :
    ((Except.error () : Except Unit (List ForgottenEntry)) = Except.error () ∨
      (Except.ok [cexIssue] : Except Unit (List PotentialIssue)) = Except.error () ∨
      (Except.ok [] : Except Unit (List MemoryRecord)) = Except.error ()) ∧
    getSuggestionsE (Except.error ()) (Except.ok [cexIssue]) (Except.ok []) none 5 =
      Except.error () :=
  ⟨Or.inl rfl,
    c4_scan_failure_propagates (Except.error ()) (Except.ok [cexIssue]) (Except.ok [])
      none 5 (Or.inl rfl)⟩

/-- C5 (amended): in the recall tool, entity focus takes precedence (top
entity with count ≥ 3 wins, the top file is only consulted below that
threshold); in the `ContextClient` the file check runs first, so a top
file with count ≥ 3 wins even when an entity also qualifies. -/
theorem c5_focus_precedence :
    (∀ (ms : List MemoryRecord) (ec : List (String × Nat)) (n : String) (c : Nat),
      ms ≠ [] → (sortEntriesDesc ec).head? = some (n, c) → 3 ≤ c →
        inferFocus ms ec = some ("entity:" ++ n)) ∧
    (∀ (ms : List MemoryRecord) (fc ec : List (String × Nat)) (f : String) (c : Nat),
      ms ≠ [] → (sortEntriesDesc fc).head? = some (f, c) → 3 ≤ c →
        clientInferFocus ms fc ec = some ("file:" ++ f)) ∧
    (∀ (ms : List MemoryRecord) (ec : List (String × Nat)),
      ms ≠ [] → (∀ n c, (sortEntriesDesc ec).head? = some (n, c) → c < 3) →
        inferFocus ms ec = fileFocus ms) ∧
    (∀ (ms : List MemoryRecord) (fc ec : List (String × Nat)),
      ms ≠ [] → (∀ f c, (sortEntriesDesc fc).head? = some (f, c) → c < 3) →
        clientInferFocus ms fc ec = entityFocusOf ec) := by
  refine ⟨?_, ?_, ?_, ?_⟩
  · intro ms ec n c hne hh hc
    have hms : ms.isEmpty = false := by simp [List.isEmpty_iff, hne]
    simp only [inferFocus, hms, Bool.false_eq_true, if_false, hh]
    rw [if_pos hc]
  · intro ms fc ec f c hne hh hc
    have hms : ms.isEmpty = false := by simp [List.isEmpty_iff, hne]
    simp only [clientInferFocus, hms, Bool.false_eq_true, if_false, hh]
    rw [if_pos hc]
  · intro ms ec hne hlow
    have hms : ms.isEmpty = false := by simp [List.isEmpty_iff, hne]
    simp only [inferFocus, hms, Bool.false_eq_true, if_false]
    cases hh : (sortEntriesDesc ec).head? with
    | none => rfl
    | some te =>
        obtain ⟨n, c⟩ := te
        dsimp only
        rw [if_neg (by exact Nat.not_le.mpr (hlow n c hh))]
  · intro ms fc ec hne hlow
    have hms : ms.isEmpty = false := by simp [List.isEmpty_iff, hne]
    simp only [clientInferFocus, hms, Bool.false_eq_true, if_false]
    cases hh : (sortEntriesDesc fc).head? with
    | none => rfl
    | some tf =>
        obtain ⟨f, c⟩ := tf
        dsimp only
        rw [if_neg (by exact Nat.not_le.mpr (hlow f c hh))]

/-- In-window records of the focus counterexample: one entity and one
file, each seen three times. -/
def cexFocusRec1 : MemoryRecord :=
  mkRec "r1" "code" 999900000 (some "apollo") (some "src/a.ts")
    (some "[\"fetchUser\"]") none none none none false "c1"

/-- Second record of the focus counterexample. -/
def cexFocusRec2 : MemoryRecord :=
  mkRec "r2" "code" 999800000 (some "apollo") (some "src/a.ts")
    (some "[\"fetchUser\"]") none none none none false "c2"

/-- Third record of the focus counterexample. -/
def cexFocusRec3 : MemoryRecord :=
  mkRec "r3" "code" 999700000 (some "apollo") (some "src/a.ts")
    (some "[\"fetchUser\"]") none none none none false "c3"

/-- Store for the focus counterexample. -/
def cexFocusDb : List MemoryRecord := [cexFocusRec1, cexFocusRec2, cexFocusRec3]

/-- C5 counterexample: in the `ContextClient`, with the top entity at
count 3 (qualifying) and the top file at count 3, the analysis reports
`file:src/a.ts` — not the entity the claim demands. -/
theorem c5_client_file_precedence_counterexample :
    (clientAnalyzeContext cexFocusDb 1000000000 30 none none).current_focus =
      some "file:src/a.ts" ∧
    (sortEntriesDesc (entityCountsOf (fetchRecent cexFocusDb (1000000000 - 30 * 60000)
      none none))).head? = some ("fetchUser", 3) := by
  constructor <;> decide

/-- A nonempty record list and a top entity reaching the threshold. -/
def witFocusEc : List (String × Nat) := [("fetchUser", 3), ("auth", 1)]

/-- Witness for C5 at a concrete entity-count table. -/
theorem c5_witness :
    (cexFocusDb ≠ ([] : List MemoryRecord) ∧
      (sortEntriesDesc witFocusEc).head? = some ("fetchUser", 3) ∧ 3 ≤ 3) ∧
    inferFocus cexFocusDb witFocusEc = some ("entity:fetchUser") :=
  ⟨⟨by decide, by decide, by decide⟩,
    c5_focus_precedence.1 cexFocusDb witFocusEc "fetchUser" 3
      (by decide) (by decide) (by decide)⟩

/-! ### Spec-side restatement of the forgotten-knowledge scan (§4.4 a) -/

/-- Spec wording of the forgotten-knowledge criterion: non-archived (and
matching the project hint when one is supplied), importance at least 0.6,
last accessed more than 14 days before `now` or never. -/
def specForgottenFilter (proj : Option String) (now : Int) (m : MemoryRecord) : Bool :=
  !m.archived && hintProjOk proj m &&
  (match m.importance_score with
   | some x => decide (mkRat 6 10 ≤ x)
   | none => false) &&
  (match m.last_accessed with
   | some t => decide (14 * 86400000 < now - t)
   | none => true)

/-- Amended days-since-access: floor of elapsed days, 999 when never
accessed or when the stored stamp is 0 (the truthiness default). -/
def specDaysSince (now : Int) (m : MemoryRecord) : Int :=
  match m.last_accessed with
  | some t => if t = 0 then 999 else (now - t).fdiv 86400000
  | none => 999

/-- Claim wording taken literally: 999 only for a never-accessed
record. -/
def specDaysSinceLiteral (now : Int) (m : MemoryRecord) : Int :=
  match m.last_accessed with
  | some t => (now - t).fdiv 86400000
  | none => 999

/-- Spec-side entry: preview, importance, days since access and the
generated reason sentence. -/
def specForgottenEntry (now : Int) (m : MemoryRecord) : ForgottenEntry :=
  { memory_id := m.id, content_preview := strTake (m.content.getD "") 200,
    project := m.project, importance_score := m.importance_score,
    days_since_access := specDaysSince now m,
    reason := "Important memory (" ++
      (match m.importance_score with
       | some x => toFixed2 x
       | none => "undefined") ++
      ") not accessed in " ++ toString (specDaysSince now m) ++ " days" }

/-- Spec-side entry with the literal (unamended) day count. -/
def specForgottenEntryLiteral (now : Int) (m : MemoryRecord) : ForgottenEntry :=
  { memory_id := m.id, content_preview := strTake (m.content.getD "") 200,
    project := m.project, importance_score := m.importance_score,
    days_since_access := specDaysSinceLiteral now m,
    reason := "Important memory (" ++
      (match m.importance_score with
       | some x => toFixed2 x
       | none => "undefined") ++
      ") not accessed in " ++ toString (specDaysSinceLiteral now m) ++ " days" }

/-- The forgotten-knowledge list as the spec words it. -/
def specForgottenKnowledge (db : List MemoryRecord) (proj : Option String) (now : Int) :
    List ForgottenEntry :=
  ((sortByStable impLt (db.filter (specForgottenFilter proj now))).take 10).map
    (specForgottenEntry now)

/-- The forgotten-knowledge list exactly as the claim states it. -/
def specForgottenKnowledgeLiteral (db : List MemoryRecord) (proj : Option String)
    (now : Int) : List ForgottenEntry :=
  ((sortByStable impLt (db.filter (specForgottenFilter proj now))).take 10).map
    (specForgottenEntryLiteral now)

theorem optQLt_asym (a b : Option ℚ) : optQLt a b = true → optQLt b a = false := by
  cases a <;> cases b <;> simp [optQLt]
  intro h
  linarith

theorem optQLt_negtrans (a b c : Option ℚ) :
    optQLt a b = false → optQLt b c = false → optQLt a c = false := by
  cases a <;> cases b <;> cases c <;> simp [optQLt]
  intros
  linarith

/-- C8 (amended): the forgotten-knowledge scan returns exactly the
spec-side list, is ordered by importance descending, and holds at most
10 entries. -/
theorem c8_forgotten_matches_spec (db : List MemoryRecord) (proj : Option String)
    (now : Int) :
    getForgottenKnowledge db proj now = specForgottenKnowledge db proj now ∧
    (getForgottenKnowledge db proj now).Pairwise
      (fun a b => optQLt a.importance_score b.importance_score = false) ∧
    (getForgottenKnowledge db proj now).length ≤ 10 := by
  have hfeq : db.filter (forgottenFilter proj now) =
      db.filter (specForgottenFilter proj now) := by
    apply List.filter_congr
    intro m _
    unfold forgottenFilter specForgottenFilter
    rcases hla : m.last_accessed with _ | t
    · rw [Bool.eq_iff_iff]
      simp only [Bool.and_eq_true, decide_eq_true_eq, Bool.not_eq_true']
      tauto
    · have hiff : (t < now - 14 * 86400000) ↔ (14 * 86400000 < now - t) := by omega
      rw [Bool.eq_iff_iff]
      simp only [Bool.and_eq_true, decide_eq_true_eq, Bool.not_eq_true']
      rw [hiff]
      tauto
  refine ⟨?_, ?_, ?_⟩
  · unfold getForgottenKnowledge specForgottenKnowledge
    rw [hfeq]
    rfl
  · have hs := pairwise_sortByStable impLt (db.filter (forgottenFilter proj now))
      (fun a b h => optQLt_asym _ _ h) (fun a b c h1 h2 => optQLt_negtrans _ _ _ h1 h2)
    have hs2 := hs.sublist (List.take_sublist 10 _)
    unfold getForgottenKnowledge
    rw [List.pairwise_map]
    exact hs2
  · unfold getForgottenKnowledge
    rw [List.length_map, List.length_take]
    exact min_le_left _ _

/-- Record accessed at epoch 0 exactly (a truthy-falsy stamp). -/
def cexForgottenRec : MemoryRecord :=
  mkRec "f1" "note" 5 none none none (some "insight") (some (mkRat 9 10)) (some 0)
    (some 0) false "hf"

/-- Store for the C8 counterexample. -/
def cexForgottenDb : List MemoryRecord := [cexForgottenRec]

/-- C8 counterexample: for a record with `last_accessed = 0` the code
reports the 999 sentinel while the claim's floor-of-elapsed-days formula
gives 23148 (at `now` = 2000000000000 ms). -/
theorem c8_zero_last_accessed_counterexample :
    (getForgottenKnowledge cexForgottenDb none 2000000000000).map
      (fun e => e.days_since_access) = [999] ∧
    (specForgottenKnowledgeLiteral cexForgottenDb none 2000000000000).map
      (fun e => e.days_since_access) = [23148] := by
  constructor <;> decide

/-- A counter table with no array-index key enumerates in pure insertion
(first-encounter) order. -/
theorem jsEntries_of_no_index_key (l : List (String × Nat))
    (h : l.all (fun kv => !isArrayIndexKey kv.1) = true) :
    jsEntries l = l := by
  unfold jsEntries
  have h1 : l.filter (fun kv => isArrayIndexKey kv.1) = [] := by
    rw [List.filter_eq_nil_iff]
    intro kv hkv
    have hk := List.all_eq_true.mp h kv hkv
    simp only [Bool.not_eq_true'] at hk
    simp [hk]
  have h2 : l.filter (fun kv => !isArrayIndexKey kv.1) = l :=
    List.filter_eq_self.mpr (fun kv hkv => List.all_eq_true.mp h kv hkv)
  rw [h1, h2]
  rfl

/-- C9 (amended): sorting a frequency table is a stable descending sort
over its `Object.entries` enumeration.  The sorted table is ordered by
count descending; entries with equal counts keep their `Object.entries`
order — array-index keys (canonical numeric strings such as "7") first
in ascending numeric order, then the remaining keys in first-encounter
order; when no key is an array-index string (the ordinary case for
project, entity, type and file names) equal counts therefore keep pure
first-encounter order of the newest-first scan, so the more recently
seen of two equally frequent ordinary keys is ranked ahead; and
`primary_project` / `active_projects` are the head and first three
entries of the sorted project table. -/
theorem c9_tie_breaking_entries_order (ms : List MemoryRecord) :
    ((sortEntriesDesc (projectCountsOf ms)).Pairwise (fun a b => b.2 ≤ a.2)) ∧
    (∀ c : Nat, (sortEntriesDesc (projectCountsOf ms)).filter (fun kv => kv.2 == c) =
      (jsEntries (projectCountsOf ms)).filter (fun kv => kv.2 == c)) ∧
    ((projectCountsOf ms).all (fun kv => !isArrayIndexKey kv.1) = true →
      ∀ c : Nat, (sortEntriesDesc (projectCountsOf ms)).filter (fun kv => kv.2 == c) =
        (projectCountsOf ms).filter (fun kv => kv.2 == c)) ∧
    (∀ c : Nat, (sortEntriesDesc (entityCountsOf ms)).filter (fun kv => kv.2 == c) =
      (jsEntries (entityCountsOf ms)).filter (fun kv => kv.2 == c)) ∧
    ((entityCountsOf ms).all (fun kv => !isArrayIndexKey kv.1) = true →
      ∀ c : Nat, (sortEntriesDesc (entityCountsOf ms)).filter (fun kv => kv.2 == c) =
        (entityCountsOf ms).filter (fun kv => kv.2 == c)) ∧
    (ms ≠ [] →
      (analyzeContext ms).primary_project =
        ((sortEntriesDesc (projectCountsOf ms)).head?).map Prod.fst ∧
      (analyzeContext ms).active_projects =
        ((sortEntriesDesc (projectCountsOf ms)).map Prod.fst).take 3) := by
  have hasym : ∀ a b : String × Nat,
      decide (a.2 < b.2) = true → decide (b.2 < a.2) = false := by
    intro a b h
    simp only [decide_eq_true_eq] at h
    simp only [decide_eq_false_iff_not]
    omega
  have hstb : ∀ (l : List (String × Nat)) (c : Nat),
      (sortEntriesDesc l).filter (fun kv => kv.2 == c) =
        (jsEntries l).filter (fun kv => kv.2 == c) := by
    intro l c
    unfold sortEntriesDesc
    apply filter_sortByStable
    intro x y hx hy
    simp only [beq_iff_eq] at hx hy
    simp only [decide_eq_false_iff_not]
    omega
  have hins : ∀ (l : List (String × Nat)),
      l.all (fun kv => !isArrayIndexKey kv.1) = true →
      ∀ c : Nat, (sortEntriesDesc l).filter (fun kv => kv.2 == c) =
        l.filter (fun kv => kv.2 == c) := by
    intro l h c
    rw [hstb l c, jsEntries_of_no_index_key l h]
  refine ⟨?_, hstb _, hins _, hstb _, hins _, ?_⟩
  · have hp := pairwise_sortByStable (fun a b : String × Nat => decide (a.2 < b.2))
      (jsEntries (projectCountsOf ms)) hasym
      (by intro a b c h1 h2
          simp only [decide_eq_false_iff_not] at h1 h2 ⊢
          omega)
    exact hp.imp (by intro a b h; simp only [decide_eq_false_iff_not] at h; omega)
  · intro hne
    have hms : ms.isEmpty = false := by simp [List.isEmpty_iff, hne]
    constructor
    · simp only [analyzeContext, hms, Bool.false_eq_true, if_false]
      exact List.head?_map _ _
    · simp only [analyzeContext, hms, Bool.false_eq_true, if_false]

/-- First record of the numeric-key counterexample: ordinary project
name, encountered first in the newest-first scan. -/
def cexNumericRec1 : MemoryRecord :=
  mkRec "x1" "code" 400 (some "apple") none none none none none none false "q1"

/-- Second record of the numeric-key counterexample: the project is the
array-index string "7". -/
def cexNumericRec2 : MemoryRecord :=
  mkRec "x2" "code" 300 (some "7") none none none none none none false "q2"

/-- Newest-first in-window scan of the numeric-key counterexample. -/
def cexNumericMs : List MemoryRecord := [cexNumericRec1, cexNumericRec2]

/-- C9 counterexample: projects "apple" and "7" are equally frequent and
"apple" is encountered first in the newest-first scan, yet
`Object.entries` enumerates the array-index key "7" before the
insertion-ordered keys, so "7" precedes "apple" in `active_projects` and
wins `primary_project` — against the claimed universal first-encounter
tie order. -/
theorem c9_numeric_key_tie_counterexample :
    projectCountsOf cexNumericMs = [("apple", 1), ("7", 1)] ∧
    (analyzeContext cexNumericMs).primary_project = some "7" ∧
    (analyzeContext cexNumericMs).active_projects = ["7", "apple"] :=
  ⟨by decide, by decide, by decide⟩

/-- Four in-window records: the ordinary projects beta and alpha both
occur twice; beta is encountered first in the newest-first scan. -/
def witTieMs : List MemoryRecord :=
  [ mkRec "t1" "code" 400 (some "beta") none none none none none none false "k1",
    mkRec "t2" "code" 300 (some "alpha") none none none none none none false "k2",
    mkRec "t3" "code" 200 (some "beta") none none none none none none false "k3",
    mkRec "t4" "code" 100 (some "alpha") none none none none none none false "k4" ]

/-- Witness for C9 at a concrete tied store of ordinary (non-numeric)
project names: the tie keeps first-encounter order and beta wins. -/
theorem c9_witness :
    ((projectCountsOf witTieMs).all (fun kv => !isArrayIndexKey kv.1) = true ∧
      witTieMs ≠ []) ∧
    ((sortEntriesDesc (projectCountsOf witTieMs)).filter (fun kv => kv.2 == 2) =
      (projectCountsOf witTieMs).filter (fun kv => kv.2 == 2) ∧
     (analyzeContext witTieMs).primary_project =
      ((sortEntriesDesc (projectCountsOf witTieMs)).head?).map Prod.fst ∧
     (analyzeContext witTieMs).active_projects =
      ((sortEntriesDesc (projectCountsOf witTieMs)).map Prod.fst).take 3) :=
  ⟨⟨by decide, by decide⟩,
    ⟨(c9_tie_breaking_entries_order witTieMs).2.2.1 (by decide) 2,
     ((c9_tie_breaking_entries_order witTieMs).2.2.2.2.2 (by decide)).1,
     ((c9_tie_breaking_entries_order witTieMs).2.2.2.2.2 (by decide)).2⟩⟩

end MemoryEngine
